import Mathlib

/-
  Shallow embedding of the request-dispatch core of the HubSpot writer
  (src/client.py, src/component.py, src/endpoint_mapping.py).

  Python values read from csv.DictReader are strings, but the code applies
  explicit str(...) coercions in some places and not in others; to make the
  coercion observable we model cell values as an inductive type with a
  string and an integer constructor, and str(...) as pyStr.
-/

namespace HubspotWriter

/-- A Python value appearing in a row cell or a request body. -/
inductive Value
  | vstr (s : String)
  | vint (n : Int)
  deriving DecidableEq, Repr

/-- Python str(...) coercion. -/
def pyStr : Value → Value
  | .vstr s => .vstr s
  | .vint n => .vstr (toString n)

/-- Python truthiness test `not v` used by the row checks:
    empty string and zero are falsy. -/
def pyFalsy : Value → Bool
  | .vstr s => s == ""
  | .vint n => n == 0

/-- Whether a value is a string (i.e. in the image of str coercion). -/
def isStrValue : Value → Bool
  | .vstr _ => true
  | .vint _ => false

/-- A csv.DictReader row: ordered mapping column name to value.
    Keys are unique in a Python dict. -/
abbrev Row := List (String × Value)

/-- Python `row[k]`: first binding for k, none models a KeyError. -/
def listLookup (row : Row) (k : String) : Option Value :=
  match row.find? (fun p => p.1 == k) with
  | some p => some p.2
  | none => none

/-- Removal part of Python `row.pop(k)`; rows have unique keys so
    filtering all occurrences agrees with dict deletion. -/
def rowRemove (row : Row) (k : String) : Row :=
  row.filter (fun p => p.1 != k)

/-! ## Batching policy: the `batched` decorator (client.py lines 25-41)

The decorated function receives successive `data_batch` slices.  The loop
enumerates records from 1, appends to the current batch, flushes when the
index is divisible by the batch size, and flushes a nonempty remainder at
the end.  The logging branch and the sleep have no effect on the emitted
batches and are omitted. -/

def batchedGo (batchSize : Nat) : List α → Nat → List α → List (List α)
  | [], _, dataBatch => if dataBatch.isEmpty then [] else [dataBatch]
  | record :: rest, i, dataBatch =>
    let db := dataBatch ++ [record]
    if i % batchSize == 0 then db :: batchedGo batchSize rest (i + 1) []
    else batchedGo batchSize rest (i + 1) db

/-- The sequence of batches the `batched` decorator feeds to the wrapped
    function, for a given batch size (default 100 in the source). -/
def batchedRun (batchSize : Nat) (data : List α) : List (List α) :=
  batchedGo batchSize data 1 []

/-! ## HTTP dispatcher and error sink (client.py lines 62-145)

A network call either raises at the transport level (timeout, connection
error: `netError`) or yields a `Response` with a status code and a body;
`body = none` models a body that fails to parse as JSON (response.json()
raises).  The error writer state is the ordered list of written rows plus
the `errors` flag. -/

/-- A row written by the csv.DictWriter error sink: field name to
    optional value (dict.get returns None for a missing field). -/
abbrev ErrRec := List (String × Option String)

structure RespBody where
  fields : List (String × String)
  errors : List ErrRec
  deriving DecidableEq

structure Response where
  statusCode : Nat
  body : Option RespBody
  deriving DecidableEq

inductive NetResult
  | netError
  | resp (r : Response)
  deriving DecidableEq

structure WriterState where
  written : List ErrRec
  errorsFlag : Bool
  deriving DecidableEq

def ERRORS_TABLE_COLUMNS : List String := ["status", "category", "message", "context"]

def lookupField (fields : List (String × String)) (k : String) : Option String :=
  match fields.find? (fun p => p.1 == k) with
  | some p => some p.2
  | none => none

/-- HubSpotClient.log_errors: parses the body (raising on non-JSON) and
    writes one row of the four ERRORS_TABLE_COLUMNS fields. -/
def log_errors (w : WriterState) (r : Response) : Except String WriterState :=
  match r.body with
  | none => .error "JSONDecodeError"
  | some b =>
    .ok { written := w.written ++ [ERRORS_TABLE_COLUMNS.map (fun f => (f, lookupField b.fields f))],
          errorsFlag := true }

/-- HubSpotClient.log_batch_errors: writes one row per entry of the
    body's errors array, in order. -/
def log_batch_errors (w : WriterState) (r : Response) : Except String WriterState :=
  match r.body with
  | none => .error "JSONDecodeError"
  | some b => .ok { written := w.written ++ b.errors, errorsFlag := true }

/-- HubSpotClient.make_request.  The try/except wraps only
    raise_for_status (which raises exactly on 4xx/5xx); a transport-level
    exception from the session call itself is not caught, and an
    exception from log_errors (non-JSON body) escapes the except block. -/
def make_request (w : WriterState) (method : String) (res : NetResult) :
    Except String (WriterState × Response) :=
  if !(["post", "put", "delete", "patch"].contains method) then
    .error "Method not allowed."
  else match res with
    | .netError => .error "RequestException"
    | .resp r =>
      if 400 ≤ r.statusCode ∧ r.statusCode < 600 then
        match log_errors w r with
        | .error e => .error e
        | .ok w2 => .ok (w2, r)
      else .ok (w, r)

/-- HubSpotClient.make_batch_request: delegates to make_request, then on
    a 207 status logs the per-item errors from the body. -/
def make_batch_request (w : WriterState) (method : String) (res : NetResult) :
    Except String WriterState :=
  match make_request w method res with
  | .error e => .error e
  | .ok (w2, r) =>
    if r.statusCode == 207 then log_batch_errors w2 r
    else .ok w2

/-! ## Retry policy (client.py HubSpotClient.\_\_init\_\_, lines 73-80) -/

structure RetryPolicy where
  total : Nat
  backoffFactorTenths : Nat
  statusForcelist : List Nat
  allowedMethods : List String
  deriving DecidableEq

/-- The urllib3 Retry object mounted on the session: total=5,
    backoff_factor=0.3 (three tenths), the listed status_forcelist and
    allowed methods. -/
def hubspotRetry : RetryPolicy :=
  { total := 5
    backoffFactorTenths := 3
    statusForcelist := [500, 502, 503, 504, 521]
    allowedMethods := ["POST", "PUT", "DELETE"] }

/-! ## Row transformers (client.py operation classes)

Each transformer builds the list of entries for one batch request body
(the `inputs` list).  A raised UserException or KeyError is modelled as
`Except.error`; errors surface in source order because each row is
examined before the rest of the list is processed. -/

structure Association where
  toId : Value
  associationCategory : Value
  associationTypeId : Value
  deriving DecidableEq

structure BatchEntry where
  id : Option Value := none
  properties : List (String × Value) := []
  associations : List Association := []
  deriving DecidableEq

/-- The comprehension pattern of CreateContact and CreateCompany:
    every cell of the row is str-coerced. -/
def strProps (row : Row) : List (String × Value) :=
  row.map (fun p => (p.1, pyStr p.2))

/-- CreateContact.process_requests body for one batch (line 153):
    no validation, str-coerced properties. -/
def createContactInputs (rows : List Row) : List BatchEntry :=
  rows.map (fun row => { properties := strProps row })

/-- The whole CreateContact run: the batched decorator slices the rows
    and each slice yields one batch request. -/
def createContactRequests (rows : List Row) : List (List BatchEntry) :=
  (batchedRun 100 rows).map createContactInputs

/-- CreateCompany.process_requests body for one batch (lines 268-275):
    raises on an empty [name] cell, else str-coerced properties. -/
def createCompanyInputs : List Row → Except String (List BatchEntry)
  | [] => .ok []
  | row :: rest =>
    match listLookup row "name" with
    | none => .error "KeyError: name"
    | some v =>
      if pyFalsy v then
        .error "Cannot process company with empty records in [name] column."
      else
        match createCompanyInputs rest with
        | .error e => .error e
        | .ok l => .ok ({ properties := strProps row } :: l)

/-- CreateDeal.process_requests body for one batch (lines 347-355):
    raises on an empty [hubspot_owner_id] cell; the row is passed as the
    properties object with no str coercion. -/
def createDealInputs : List Row → Except String (List BatchEntry)
  | [] => .ok []
  | row :: rest =>
    match listLookup row "hubspot_owner_id" with
    | none => .error "KeyError: hubspot_owner_id"
    | some v =>
      if pyFalsy v then
        .error "Cannot process deal with empty record in [hubspot_owner_id] column."
      else
        match createDealInputs rest with
        | .error e => .error e
        | .ok l => .ok ({ properties := row } :: l)

/-- CreateAssociatedObject.process_requests body for one batch (lines
    362-375): raises on an empty [association_id]; pops the three
    association columns into the associations block (association_id with
    str coercion) and sends the remaining row as properties. -/
def createAssociatedInputs : List Row → Except String (List BatchEntry)
  | [] => .ok []
  | row :: rest =>
    match listLookup row "association_id" with
    | none => .error "KeyError: association_id"
    | some aid =>
      if pyFalsy aid then
        .error "Cannot process object with empty record in [association_id] column."
      else
        let row1 := rowRemove row "association_id"
        match listLookup row1 "association_category" with
        | none => .error "KeyError: association_category"
        | some cat =>
          let row2 := rowRemove row1 "association_category"
          match listLookup row2 "association_type_id" with
          | none => .error "KeyError: association_type_id"
          | some tid =>
            let row3 := rowRemove row2 "association_type_id"
            match createAssociatedInputs rest with
            | .error e => .error e
            | .ok l =>
              .ok ({ associations := [⟨pyStr aid, cat, tid⟩], properties := row3 } :: l)

/-- Shared body shape of UpdateContact.process_requests (lines 234-244,
    idCol = vid) and UpdateCompany.process_requests (lines 330-340,
    idCol = company_id): raises on an empty id cell; the popped id cell
    is transmitted as top-level id with NO str coercion, and the
    remaining cells are str-coerced into properties. -/
def updateByIdInputs (idCol : String) : List Row → Except String (List BatchEntry)
  | [] => .ok []
  | row :: rest =>
    match listLookup row idCol with
    | none => .error ("KeyError: " ++ idCol)
    | some v =>
      if pyFalsy v then
        .error ("Cannot process list with empty records in [" ++ idCol ++ "] column.")
      else
        match updateByIdInputs idCol rest with
        | .error e => .error e
        | .ok l => .ok ({ id := some v, properties := strProps (rowRemove row idCol) } :: l)

def updateContactInputs : List Row → Except String (List BatchEntry) :=
  updateByIdInputs "vid"

def updateCompanyInputs : List Row → Except String (List BatchEntry) :=
  updateByIdInputs "company_id"

/-- UpdateObject.process_requests body for one batch (lines 435-446):
    raises on an empty id cell; the popped id cell is str-coerced into
    the top-level id, and the remaining row is passed as the properties
    object with no coercion. -/
def updateObjectInputs (objectType : String) : List Row → Except String (List BatchEntry)
  | [] => .ok []
  | row :: rest =>
    match listLookup row (objectType ++ "_id") with
    | none => .error ("KeyError: " ++ objectType ++ "_id")
    | some v =>
      if pyFalsy v then
        .error ("Cannot process " ++ objectType ++ " with empty records in id column.")
      else
        match updateObjectInputs objectType rest with
        | .error e => .error e
        | .ok l =>
          .ok ({ id := some (pyStr v), properties := rowRemove row (objectType ++ "_id") } :: l)

/-- RemoveObject.process_requests body for one batch (line 563):
    one entry per row, id str-coerced, no deduplication. -/
def removeObjectInputs (objectType : String) : List Row → Except String (List BatchEntry)
  | [] => .ok []
  | row :: rest =>
    match listLookup row (objectType ++ "_id") with
    | none => .error "KeyError"
    | some v =>
      match removeObjectInputs objectType rest with
      | .error e => .error e
      | .ok l => .ok ({ id := some (pyStr v) } :: l)

/-- Sequential dispatch of the batches produced by the decorator: each
    successful batch sends one request; the first exception stops the run
    with the requests already sent kept. -/
def runBatches (f : List Row → Except String β) : List (List Row) → List β × Option String
  | [] => ([], none)
  | b :: rest =>
    match f b with
    | .error e => ([], some e)
    | .ok req =>
      let prev := runBatches f rest
      (req :: prev.1, prev.2)

def createCompanyRun (rows : List Row) : List (List BatchEntry) × Option String :=
  runBatches createCompanyInputs (batchedRun 100 rows)

def removeObjectRun (objectType : String) (rows : List Row) :
    List (List BatchEntry) × Option String :=
  runBatches (removeObjectInputs objectType) (batchedRun 100 rows)

/-! ## Legacy remove_company (component.py lines 347-361)

Collects company ids into a Python set (raising on an empty id), then
issues one DELETE per unique id.  Python set iteration order is
unspecified; the model keeps first-occurrence order. -/

def insertUnique (l : List Value) (v : Value) : List Value :=
  if l.contains v then l else l ++ [v]

def remove_company_collect : List Row → List Value → Except String (List Value)
  | [], acc => .ok acc
  | row :: rest, acc =>
    match listLookup row "company_id" with
    | none => .error "KeyError: company_id"
    | some v =>
      if v = Value.vstr "" then
        .error "Cannot process list with empty records in [company_id] column."
      else remove_company_collect rest (insertUnique acc v)

/-- The ids of the DELETE requests issued by remove_company, one request
    per collected unique id. -/
def remove_company_requests (rows : List Row) : Except String (List Value) :=
  remove_company_collect rows []

/-! ## List-membership operations (client.py lines 44-59, 192-211) -/

/-- defaultdict(list) grouping: append the row to its key's group,
    creating the group at first occurrence (dict keys keep insertion
    order). -/
def addToGroup : List (Value × List Row) → Value → Row → List (Value × List Row)
  | [], v, row => [(v, [row])]
  | (k, rs) :: rest, v, row =>
    if k = v then (k, rs ++ [row]) :: rest
    else (k, rs) :: addToGroup rest v row

def groupGo : List Row → List (Value × List Row) → Except String (List (Value × List Row))
  | [], acc => .ok acc
  | row :: rest, acc =>
    match listLookup row "list_id" with
    | none => .error "KeyError: list_id"
    | some v =>
      if pyFalsy v then .error "Column [list_id] cannot be empty."
      else groupGo rest (addToGroup acc v row)

/-- get_rows_by_list_id (client.py lines 44-50): groups all rows by
    list_id, raising on any empty list_id before anything is dispatched. -/
def get_rows_by_list_id (rows : List Row) : Except String (List (Value × List Row)) :=
  groupGo rows []

/-- The per-group loop of AddContactToList.process_requests (lines
    199-205): a truthy vids cell goes to the vids list, otherwise the
    emails cell goes to the emails list. -/
def collectGo : List Row → List Value → List Value → Except String (List Value × List Value)
  | [], vids, emails => .ok (vids, emails)
  | row :: rest, vids, emails =>
    match listLookup row "vids" with
    | none => .error "KeyError: vids"
    | some v =>
      if pyFalsy v then
        match listLookup row "emails" with
        | none => .error "KeyError: emails"
        | some e => collectGo rest vids (emails ++ [e])
      else collectGo rest (vids ++ [v]) emails

def collectVidsEmails (rows : List Row) : Except String (List Value × List Value) :=
  collectGo rows [] []

structure ListRequest where
  listId : Value
  vids : List Value
  emails : List Value
  deriving DecidableEq

def processListGroups : List (Value × List Row) → List ListRequest × Option String
  | [] => ([], none)
  | (lid, rs) :: rest =>
    match collectVidsEmails rs with
    | .error e => ([], some e)
    | .ok ve =>
      let prev := processListGroups rest
      ({ listId := lid, vids := ve.1, emails := ve.2 } :: prev.1, prev.2)

/-- AddContactToList.process_requests: grouping first (all rows), then
    one request per group. -/
def addContactToListRun (rows : List Row) : List ListRequest × Option String :=
  match get_rows_by_list_id rows with
  | .error e => ([], some e)
  | .ok groups => processListGroups groups

/-! ## Theorems -/

/-! ### C1: error recording on failed requests -/

-- C1 counterexample: a transport-level failure (timeout, connection
-- error) is raised by the session call outside the try block of
-- make_request, so it propagates and aborts the run instead of being
-- recorded as an ErrorRecord.
theorem c1_network_error_aborts :
    make_request { written := [], errorsFlag := false } "post" NetResult.netError
      = Except.error "RequestException" := by
  rfl

/-- Claim C1 (amended): for a dispatched request whose response is a
non-2xx HTTP status (4xx/5xx) with a JSON-parseable body, make_request
records exactly one ErrorRecord whose status/category/message/context
fields are drawn from the response body, and returns normally so the run
continues; transport-level failures, by contrast, abort (see the
counterexample). -/
theorem c1_non2xx_logs_one_error (w : WriterState) (r : Response) (b : RespBody)
    (h1 : 400 ≤ r.statusCode) (h2 : r.statusCode < 600) (h3 : r.body = some b) :
    make_request w "post" (NetResult.resp r)
      = Except.ok
          ({ written := w.written ++ [ERRORS_TABLE_COLUMNS.map (fun f => (f, lookupField b.fields f))],
             errorsFlag := true }, r) := by
  simp only [make_request, log_errors, h3, List.contains_cons, beq_self_eq_true, Bool.true_or,
    Bool.not_true, Bool.false_eq_true, if_false, if_pos (And.intro h1 h2)]

-- Witness for c1_non2xx_logs_one_error at a concrete 404 response.
theorem c1_non2xx_logs_one_error_witness :
    make_request ⟨[], false⟩ "post"
        (NetResult.resp ⟨404, some ⟨[("status", "error"), ("category", "OBJECT_NOT_FOUND"),
          ("message", "not found"), ("context", "ctx")], []⟩⟩)
      = Except.ok
          (⟨[[("status", some "error"), ("category", some "OBJECT_NOT_FOUND"),
              ("message", some "not found"), ("context", some "ctx")]], true⟩,
           ⟨404, some ⟨[("status", "error"), ("category", "OBJECT_NOT_FOUND"),
             ("message", "not found"), ("context", "ctx")], []⟩⟩) := by
  have h := c1_non2xx_logs_one_error ⟨[], false⟩
    ⟨404, some ⟨[("status", "error"), ("category", "OBJECT_NOT_FOUND"),
      ("message", "not found"), ("context", "ctx")], []⟩⟩
    ⟨[("status", "error"), ("category", "OBJECT_NOT_FOUND"),
      ("message", "not found"), ("context", "ctx")], []⟩
    (by decide) (by decide) rfl
  simpa using h

/-! ### C3: 207 multi-status handling -/

/-- Claim C3: a batch request whose response has HTTP status 207 never
raises: make_batch_request returns normally having appended exactly the
entries of the body's errors array (one ErrorRecord per entry) to the
error sink, so processing proceeds to the next batch. -/
theorem c3_status207_never_raises (w : WriterState) (r : Response) (b : RespBody)
    (h1 : r.statusCode = 207) (h2 : r.body = some b) :
    make_batch_request w "post" (NetResult.resp r)
      = Except.ok { written := w.written ++ b.errors, errorsFlag := true } := by
  simp [make_batch_request, make_request, log_batch_errors, h1, h2]

-- Witness for c3_status207_never_raises at a concrete 207 response with
-- two failing sub-items.
theorem c3_status207_never_raises_witness :
    make_batch_request ⟨[], false⟩ "post"
        (NetResult.resp ⟨207, some ⟨[],
          [[("status", some "error"), ("message", some "bad row 3")],
           [("status", some "error"), ("message", some "bad row 7")]]⟩⟩)
      = Except.ok
          ⟨[[("status", some "error"), ("message", some "bad row 3")],
            [("status", some "error"), ("message", some "bad row 7")]], true⟩ := by
  have h := c3_status207_never_raises ⟨[], false⟩
    ⟨207, some ⟨[],
      [[("status", some "error"), ("message", some "bad row 3")],
       [("status", some "error"), ("message", some "bad row 7")]]⟩⟩
    ⟨[], [[("status", some "error"), ("message", some "bad row 3")],
          [("status", some "error"), ("message", some "bad row 7")]]⟩
    rfl rfl
  simpa using h

/-! ### C5: retry policy -/

-- C5 counterexample: the claim includes the rate-limit code 429 among
-- the retried statuses, but 429 is not in the mounted status_forcelist.
theorem c5_429_not_retried : hubspotRetry.statusForcelist.contains 429 = false := by
  rfl

/-- Claim C5 (amended): the session retry policy retries with exponential
backoff (factor 0.3) and a bounded attempt count of 5 exactly on the
transient statuses 500, 502, 503, 504 and 521, for the verbs POST, PUT
and DELETE; the rate-limit code 429 is NOT retried. -/
theorem c5_retry_policy :
    hubspotRetry.total = 5
    ∧ hubspotRetry.backoffFactorTenths = 3
    ∧ hubspotRetry.statusForcelist = [500, 502, 503, 504, 521]
    ∧ hubspotRetry.allowedMethods = ["POST", "PUT", "DELETE"]
    ∧ (429 ∈ hubspotRetry.statusForcelist → False) := by
  refine ⟨rfl, rfl, rfl, rfl, ?_⟩
  decide

/-! ### C2: batching policy -/

theorem mod_pred_of_mod_eq_zero (n i : Nat) (hn : 0 < n) (hi : 1 ≤ i) (h : i % n = 0) :
    (i - 1) % n = n - 1 := by
  obtain ⟨k, hk⟩ := Nat.dvd_of_mod_eq_zero h
  rcases k with _ | k'
  · omega
  · have hm : n * (k' + 1) = n * k' + n := Nat.mul_succ n k'
    have h1 : i - 1 = n * k' + (n - 1) := by omega
    rw [h1, Nat.mul_add_mod, Nat.mod_eq_of_lt (by omega)]

theorem mod_succ_pred (n i : Nat) (hn : 0 < n) (hi : 1 ≤ i) (h : i % n ≠ 0) :
    (i - 1) % n + 1 = i % n := by
  have hd := Nat.div_add_mod i n
  have hrlt : i % n < n := Nat.mod_lt _ hn
  have h1 : i - 1 = n * (i / n) + (i % n - 1) := by omega
  rw [h1, Nat.mul_add_mod, Nat.mod_eq_of_lt (by omega)]
  omega

theorem batchedGo_flatten (n : Nat) (rest : List α) :
    ∀ (i : Nat) (acc : List α), (batchedGo n rest i acc).flatten = acc ++ rest := by
  induction rest with
  | nil =>
    intro i acc
    cases acc with
    | nil => simp [batchedGo]
    | cons a as => simp [batchedGo]
  | cons r rest ih =>
    intro i acc
    by_cases h : (i % n == 0) = true
    · rw [show batchedGo n (r :: rest) i acc
            = (acc ++ [r]) :: batchedGo n rest (i + 1) [] from by simp [batchedGo, h]]
      rw [List.flatten_cons, ih]
      simp
    · rw [show batchedGo n (r :: rest) i acc
            = batchedGo n rest (i + 1) (acc ++ [r]) from by simp [batchedGo, h]]
      rw [ih]
      simp

theorem batchedGo_sizes (n : Nat) (hn : 0 < n) (rest : List α) :
    ∀ (i : Nat) (acc : List α), 1 ≤ i → acc.length = (i - 1) % n →
      (∀ b ∈ (batchedGo n rest i acc).dropLast, b.length = n)
      ∧ (∀ b ∈ batchedGo n rest i acc, b.length ≤ n) := by
  induction rest with
  | nil =>
    intro i acc hi hacc
    have hlt : acc.length < n := by
      rw [hacc]; exact Nat.mod_lt _ hn
    cases acc with
    | nil =>
      constructor <;> intro b hb <;> simp [batchedGo] at hb
    | cons a as =>
      constructor
      · intro b hb
        simp [batchedGo, List.dropLast_single] at hb
      · intro b hb
        simp [batchedGo] at hb
        subst hb
        exact Nat.le_of_lt hlt
  | cons r rest ih =>
    intro i acc hi hacc
    by_cases h : (i % n == 0) = true
    · have hmod : i % n = 0 := by simpa using h
      have hfull : (acc ++ [r]).length = n := by
        have hpred := mod_pred_of_mod_eq_zero n i hn hi hmod
        simp only [List.length_append, List.length_singleton, hacc, hpred]
        omega
      have hih := ih (i + 1) [] (by omega) (by simpa using hmod.symm)
      rw [show batchedGo n (r :: rest) i acc
            = (acc ++ [r]) :: batchedGo n rest (i + 1) [] from by simp [batchedGo, h]]
      constructor
      · intro b hb
        cases htail : batchedGo n rest (i + 1) [] with
        | nil => rw [htail] at hb; simp at hb
        | cons t ts =>
          rw [htail, List.dropLast_cons₂, List.mem_cons] at hb
          rcases hb with hb | hb
          · subst hb; exact hfull
          · have h1 := hih.1
            rw [htail] at h1
            exact h1 b hb
      · intro b hb
        rw [List.mem_cons] at hb
        rcases hb with hb | hb
        · subst hb; omega
        · exact hih.2 b hb
    · have hmod : i % n ≠ 0 := by simpa using h
      have hstep : (acc ++ [r]).length = (i + 1 - 1) % n := by
        have hsp := mod_succ_pred n i hn hi hmod
        simp only [List.length_append, List.length_singleton, hacc, Nat.add_sub_cancel]
        omega
      have hih := ih (i + 1) (acc ++ [r]) (by omega) hstep
      rw [show batchedGo n (r :: rest) i acc
            = batchedGo n rest (i + 1) (acc ++ [r]) from by simp [batchedGo, h]]
      exact hih

/-- Claim C2: the batching policy is length-preserving (concatenating the
emitted batches in order reproduces the row sequence), every batch except
possibly the last has exactly the configured size and no batch exceeds
it; in particular 250 rows with batch size 100 yield exactly 3 requests
of sizes 100, 100 and 50. -/
theorem c2_batching (α : Type) (n : Nat) (hn : 0 < n) (data : List α) :
    (batchedRun n data).flatten = data
    ∧ (∀ b ∈ (batchedRun n data).dropLast, b.length = n)
    ∧ (∀ b ∈ batchedRun n data, b.length ≤ n)
    ∧ (batchedRun 100 (List.range 250)).length = 3
    ∧ (batchedRun 100 (List.range 250)).map List.length = [100, 100, 50] := by
  have hsz := batchedGo_sizes n hn data 1 [] (by omega) (by simp)
  refine ⟨?_, hsz.1, hsz.2, by rfl, by rfl⟩
  have := batchedGo_flatten n data 1 ([] : List α)
  simpa [batchedRun] using this

-- Witness for c2_batching at batch size 2 on a 3-element list.
theorem c2_batching_witness :
    (batchedRun 2 ([10, 20, 30] : List Nat)).flatten = [10, 20, 30] :=
  (c2_batching Nat 2 (by decide) [10, 20, 30]).1

/-! ### C4: remove-by-id deduplication -/

-- C4 counterexample: the RemoveObject dispatch path builds one payload
-- entry per input row with no deduplication, so ids [1, 1, 2] yield one
-- batch request with 3 entries, not 2.
theorem c4_remove_object_no_dedup :
    removeObjectRun "company"
        [[("company_id", Value.vstr "1")], [("company_id", Value.vstr "1")],
         [("company_id", Value.vstr "2")]]
      = ([[⟨some (Value.vstr "1"), [], []⟩, ⟨some (Value.vstr "1"), [], []⟩,
           ⟨some (Value.vstr "2"), [], []⟩]], none) := by
  rfl

theorem removeObjectInputs_length (objectType : String) (rows : List Row) :
    ∀ l, removeObjectInputs objectType rows = Except.ok l → l.length = rows.length := by
  induction rows with
  | nil =>
    intro l h
    simp only [removeObjectInputs] at h
    cases h
    rfl
  | cons row rest ih =>
    intro l h
    simp only [removeObjectInputs] at h
    cases hk : listLookup row (objectType ++ "_id") with
    | none => rw [hk] at h; cases h
    | some v =>
      rw [hk] at h
      cases hr : removeObjectInputs objectType rest with
      | error e => rw [hr] at h; cases h
      | ok l2 =>
        rw [hr] at h
        cases h
        simp [ih l2 hr]

/-- Claim C4 (amended): in the batch RemoveObject path every input row
produces exactly one payload entry, with no deduplication (so ids
[1, 1, 2] give 3 entries in one request, see the counterexample); only
the legacy component remove_company path collapses rows to the unique id
set, giving exactly 2 DELETE requests for ids [1, 1, 2] (iteration order
of the set not guaranteed; the model fixes first-occurrence order). -/
theorem c4_remove_paths (objectType : String) (rows : List Row) (l : List BatchEntry)
    (h : removeObjectInputs objectType rows = Except.ok l) :
    l.length = rows.length
    ∧ remove_company_requests
        [[("company_id", Value.vstr "1")], [("company_id", Value.vstr "1")],
         [("company_id", Value.vstr "2")]]
      = Except.ok [Value.vstr "1", Value.vstr "2"] := by
  exact ⟨removeObjectInputs_length objectType rows l h, by rfl⟩

-- Witness for c4_remove_paths on a single-row input.
theorem c4_remove_paths_witness :
    ([⟨some (Value.vstr "9"), [], []⟩] : List BatchEntry).length
        = [[("deal_id", Value.vstr "9")]].length
    ∧ remove_company_requests
        [[("company_id", Value.vstr "1")], [("company_id", Value.vstr "1")],
         [("company_id", Value.vstr "2")]]
      = Except.ok [Value.vstr "1", Value.vstr "2"] :=
  c4_remove_paths "deal" [[("deal_id", Value.vstr "9")]]
    [⟨some (Value.vstr "9"), [], []⟩] rfl

/-! ### C6: string coercion of transmitted values -/

-- C6 counterexample: CreateDeal transmits the row as the properties
-- object without str coercion, so a non-string cell value reaches the
-- emitted request body unchanged, outside any association or
-- list-membership block.
theorem c6_create_deal_raw_properties :
    createDealInputs [[("hubspot_owner_id", Value.vint 5)]]
        = Except.ok [⟨none, [("hubspot_owner_id", Value.vint 5)], []⟩]
    ∧ isStrValue (Value.vint 5) = false := by
  exact ⟨rfl, rfl⟩

theorem isStrValue_pyStr (v : Value) : isStrValue (pyStr v) = true := by
  cases v <;> rfl

theorem createDealInputs_raw (rows : List Row) :
    ∀ l, createDealInputs rows = Except.ok l →
      ∀ pr ∈ List.zip rows l, pr.2.properties = pr.1 := by
  induction rows with
  | nil =>
    intro l h
    simp only [createDealInputs] at h
    cases h
    simp
  | cons row rest ih =>
    intro l h
    simp only [createDealInputs] at h
    cases hk : listLookup row "hubspot_owner_id" with
    | none => rw [hk] at h; cases h
    | some v =>
      rw [hk] at h
      by_cases hf : pyFalsy v = true
      · simp only [hf, if_true] at h
        cases h
      · simp only [hf, if_false] at h
        cases hr : createDealInputs rest with
        | error e => rw [hr] at h; cases h
        | ok l2 =>
          rw [hr] at h
          cases h
          intro pr hpr
          rw [List.zip_cons_cons, List.mem_cons] at hpr
          rcases hpr with hpr | hpr
          · subst hpr; rfl
          · exact ih l2 hr pr hpr

theorem strProps_values_str (row : Row) :
    ∀ p ∈ strProps row, isStrValue p.2 = true := by
  intro p hp
  simp only [strProps, List.mem_map] at hp
  obtain ⟨q, _, hq⟩ := hp
  subst hq
  exact isStrValue_pyStr q.2

theorem createCompanyInputs_strings (rows : List Row) :
    ∀ l, createCompanyInputs rows = Except.ok l →
      ∀ e ∈ l, ∀ p ∈ e.properties, isStrValue p.2 = true := by
  induction rows with
  | nil =>
    intro l h
    simp only [createCompanyInputs] at h
    cases h
    simp
  | cons row rest ih =>
    intro l h
    simp only [createCompanyInputs] at h
    cases hk : listLookup row "name" with
    | none => rw [hk] at h; cases h
    | some v =>
      rw [hk] at h
      by_cases hf : pyFalsy v = true
      · simp only [hf, if_true] at h
        cases h
      · simp only [hf, if_false] at h
        cases hr : createCompanyInputs rest with
        | error e => rw [hr] at h; cases h
        | ok l2 =>
          rw [hr] at h
          cases h
          intro e he
          rw [List.mem_cons] at he
          rcases he with he | he
          · subst he
            exact strProps_values_str row
          · exact ih l2 hr e he

theorem createAssociatedInputs_props (rows : List Row) :
    ∀ l, createAssociatedInputs rows = Except.ok l →
      ∀ pr ∈ List.zip rows l,
        pr.2.properties
          = rowRemove (rowRemove (rowRemove pr.1 "association_id") "association_category")
              "association_type_id" := by
  induction rows with
  | nil =>
    intro l h
    simp only [createAssociatedInputs] at h
    cases h
    simp
  | cons row rest ih =>
    intro l h
    simp only [createAssociatedInputs] at h
    cases hk : listLookup row "association_id" with
    | none => rw [hk] at h; cases h
    | some aid =>
      rw [hk] at h
      by_cases hf : pyFalsy aid = true
      · simp only [hf, if_true] at h
        cases h
      · simp only [hf, if_false] at h
        cases hc : listLookup (rowRemove row "association_id") "association_category" with
        | none => rw [hc] at h; cases h
        | some cat =>
          rw [hc] at h
          cases ht : listLookup (rowRemove (rowRemove row "association_id")
              "association_category") "association_type_id" with
          | none => rw [ht] at h; cases h
          | some tid =>
            rw [ht] at h
            cases hr : createAssociatedInputs rest with
            | error e => rw [hr] at h; cases h
            | ok l2 =>
              rw [hr] at h
              cases h
              intro pr hpr
              rw [List.zip_cons_cons, List.mem_cons] at hpr
              rcases hpr with hpr | hpr
              · subst hpr; rfl
              · exact ih l2 hr pr hpr

theorem updateByIdInputs_shape (idCol : String) (rows : List Row) :
    ∀ l, updateByIdInputs idCol rows = Except.ok l →
      ∀ pr ∈ List.zip rows l, ∃ v,
        listLookup pr.1 idCol = some v
        ∧ pr.2.id = some v
        ∧ pr.2.properties = strProps (rowRemove pr.1 idCol) := by
  induction rows with
  | nil =>
    intro l h
    simp only [updateByIdInputs] at h
    cases h
    simp
  | cons row rest ih =>
    intro l h
    simp only [updateByIdInputs] at h
    cases hk : listLookup row idCol with
    | none => rw [hk] at h; cases h
    | some v =>
      rw [hk] at h
      by_cases hf : pyFalsy v = true
      · simp only [hf, if_true] at h
        cases h
      · simp only [hf, if_false] at h
        cases hr : updateByIdInputs idCol rest with
        | error e => rw [hr] at h; cases h
        | ok l2 =>
          rw [hr] at h
          cases h
          intro pr hpr
          rw [List.zip_cons_cons, List.mem_cons] at hpr
          rcases hpr with hpr | hpr
          · subst hpr
            exact ⟨v, hk, rfl, rfl⟩
          · exact ih l2 hr pr hpr

theorem updateObjectInputs_shape (objectType : String) (rows : List Row) :
    ∀ l, updateObjectInputs objectType rows = Except.ok l →
      ∀ pr ∈ List.zip rows l, ∃ v,
        listLookup pr.1 (objectType ++ "_id") = some v
        ∧ pr.2.id = some (pyStr v)
        ∧ pr.2.properties = rowRemove pr.1 (objectType ++ "_id") := by
  induction rows with
  | nil =>
    intro l h
    simp only [updateObjectInputs] at h
    cases h
    simp
  | cons row rest ih =>
    intro l h
    simp only [updateObjectInputs] at h
    cases hk : listLookup row (objectType ++ "_id") with
    | none => rw [hk] at h; cases h
    | some v =>
      rw [hk] at h
      by_cases hf : pyFalsy v = true
      · simp only [hf, if_true] at h
        cases h
      · simp only [hf, if_false] at h
        cases hr : updateObjectInputs objectType rest with
        | error e => rw [hr] at h; cases h
        | ok l2 =>
          rw [hr] at h
          cases h
          intro pr hpr
          rw [List.zip_cons_cons, List.mem_cons] at hpr
          rcases hpr with hpr | hpr
          · subst hpr
            exact ⟨v, hk, rfl, rfl⟩
          · exact ih l2 hr pr hpr

/-- Claim C6 (amended): string coercion is applied per-operation rather
than universally. CreateContact and CreateCompany str-coerce every
transmitted property value; UpdateContact and UpdateCompany str-coerce
their remaining property values but transmit the popped id cell raw
(top-level id equals the looked-up cell with no str); CreateDeal,
CreateAssociatedObject and the generic UpdateObject transmit the
remaining row values into the emitted properties object entirely
unchanged, with no string coercion (UpdateObject str-coerces only its
popped id cell, and CreateAssociatedObject only the association id
inside the associations block). -/
theorem c6_coercion (rows rowsCompany rowsDeal rowsAssoc rowsUpd rowsObj : List Row)
    (idCol objectType : String)
    (lc ld la lu lo : List BatchEntry)
    (hc : createCompanyInputs rowsCompany = Except.ok lc)
    (hd : createDealInputs rowsDeal = Except.ok ld)
    (ha : createAssociatedInputs rowsAssoc = Except.ok la)
    (hu : updateByIdInputs idCol rowsUpd = Except.ok lu)
    (ho : updateObjectInputs objectType rowsObj = Except.ok lo) :
    (∀ e ∈ createContactInputs rows, ∀ p ∈ e.properties, isStrValue p.2 = true)
    ∧ (∀ e ∈ lc, ∀ p ∈ e.properties, isStrValue p.2 = true)
    ∧ (∀ pr ∈ List.zip rowsDeal ld, pr.2.properties = pr.1)
    ∧ (∀ pr ∈ List.zip rowsAssoc la,
        pr.2.properties
          = rowRemove (rowRemove (rowRemove pr.1 "association_id") "association_category")
              "association_type_id")
    ∧ (∀ pr ∈ List.zip rowsUpd lu, ∃ v,
        listLookup pr.1 idCol = some v
        ∧ pr.2.id = some v
        ∧ pr.2.properties = strProps (rowRemove pr.1 idCol))
    ∧ (∀ pr ∈ List.zip rowsObj lo, ∃ v,
        listLookup pr.1 (objectType ++ "_id") = some v
        ∧ pr.2.id = some (pyStr v)
        ∧ pr.2.properties = rowRemove pr.1 (objectType ++ "_id")) := by
  refine ⟨?_, createCompanyInputs_strings rowsCompany lc hc,
    createDealInputs_raw rowsDeal ld hd,
    createAssociatedInputs_props rowsAssoc la ha,
    updateByIdInputs_shape idCol rowsUpd lu hu,
    updateObjectInputs_shape objectType rowsObj lo ho⟩
  intro e he p hp
  simp only [createContactInputs, List.mem_map] at he
  obtain ⟨row, _, hrow⟩ := he
  subst hrow
  exact strProps_values_str row p hp

-- Witness for c6_coercion: a contact cell is coerced to a string, a
-- deal properties object keeps the raw row, and an UpdateContact entry
-- keeps the popped vid cell uncoerced (here a non-string value) while
-- an UpdateObject entry keeps its remaining properties raw.
theorem c6_coercion_witness :
    isStrValue (Value.vstr "1") = true
    ∧ (⟨none, [("hubspot_owner_id", Value.vint 5)], []⟩ : BatchEntry).properties
        = [("hubspot_owner_id", Value.vint 5)] := by
  have h := c6_coercion [[("x", Value.vint 1)]]
    [[("name", Value.vstr "Acme")]]
    [[("hubspot_owner_id", Value.vint 5)]]
    [[("association_id", Value.vstr "7"), ("association_category", Value.vstr "c"),
      ("association_type_id", Value.vint 2), ("k", Value.vint 4)]]
    [[("vid", Value.vint 33), ("p", Value.vint 4)]]
    [[("deal_id", Value.vstr "5"), ("q", Value.vint 6)]]
    "vid" "deal"
    [⟨none, [("name", Value.vstr "Acme")], []⟩]
    [⟨none, [("hubspot_owner_id", Value.vint 5)], []⟩]
    [⟨none, [("k", Value.vint 4)],
      [⟨Value.vstr "7", Value.vstr "c", Value.vint 2⟩]⟩]
    [⟨some (Value.vint 33), [("p", Value.vstr "4")], []⟩]
    [⟨some (Value.vstr "5"), [("q", Value.vint 6)], []⟩]
    rfl rfl rfl rfl rfl
  exact ⟨h.1 ⟨none, [("x", Value.vstr "1")], []⟩ (by decide) ("x", Value.vstr "1") (by decide),
         h.2.2.1 ([("hubspot_owner_id", Value.vint 5)],
              ⟨none, [("hubspot_owner_id", Value.vint 5)], []⟩) (by decide)⟩

/-! ### C7: create-simple mandatory column validation -/

-- C7 counterexample: CreateContact is a create-simple operation (each
-- row becomes a properties object) yet it performs no validation: a row
-- whose name cell is empty is sent as a request, no exception is raised
-- and the run does not abort.
theorem c7_create_contact_no_validation :
    createContactRequests [[("name", Value.vstr "")]]
      = [[⟨none, [("name", Value.vstr "")], []⟩]] := by
  rfl

theorem createCompanyInputs_ok_names (rows : List Row) :
    ∀ l, createCompanyInputs rows = Except.ok l →
      ∀ r ∈ rows, ∀ v, listLookup r "name" = some v → pyFalsy v = false := by
  induction rows with
  | nil =>
    intro l h r hr
    simp at hr
  | cons row rest ih =>
    intro l h r hr v hv
    simp only [createCompanyInputs] at h
    cases hk : listLookup row "name" with
    | none => rw [hk] at h; cases h
    | some w =>
      rw [hk] at h
      by_cases hf : pyFalsy w = true
      · simp only [hf, if_true] at h
        cases h
      · simp only [hf, if_false] at h
        cases hrest : createCompanyInputs rest with
        | error e => rw [hrest] at h; cases h
        | ok l2 =>
          rw [List.mem_cons] at hr
          rcases hr with hr | hr
          · subst hr
            rw [hk] at hv
            cases hv
            simpa using hf
          · exact ih l2 hrest r hr v hv

theorem runBatches_company_error (batches : List (List Row))
    (hex : ∃ b ∈ batches, ∃ r ∈ b, ∃ v, listLookup r "name" = some v ∧ pyFalsy v = true) :
    (runBatches createCompanyInputs batches).2.isSome = true := by
  induction batches with
  | nil => simp at hex
  | cons b rest ih =>
    obtain ⟨b2, hb2, r, hr, v, hv, hfal⟩ := hex
    cases hfb : createCompanyInputs b with
    | error e => simp [runBatches, hfb]
    | ok l =>
      rw [List.mem_cons] at hb2
      rcases hb2 with hb2 | hb2
      · subst hb2
        have := createCompanyInputs_ok_names b2 l hfb r hr v hv
        rw [this] at hfal
        cases hfal
      · simp only [runBatches, hfb]
        exact ih ⟨b2, hb2, r, hr, v, hv, hfal⟩

/-- Claim C7 (amended): create-company requires a non-empty [name] cell
on every row: any row with an empty name aborts the whole run with a
UserException, and for the rows [name Acme, name empty] the abort happens
before any request is sent (zero requests); create-contact, however,
performs no such validation and sends empty-name rows unchanged (see the
counterexample). -/
theorem c7_company_validation (rows : List Row)
    (hex : ∃ r ∈ rows, ∃ v, listLookup r "name" = some v ∧ pyFalsy v = true) :
    (createCompanyRun rows).2.isSome = true
    ∧ createCompanyRun [[("name", Value.vstr "Acme")], [("name", Value.vstr "")]]
        = ([], some "Cannot process company with empty records in [name] column.")
    ∧ createContactRequests [[("name", Value.vstr "")]]
        = [[⟨none, [("name", Value.vstr "")], []⟩]] := by
  refine ⟨?_, by rfl, by rfl⟩
  apply runBatches_company_error
  obtain ⟨r, hr, v, hv, hfal⟩ := hex
  have hmem : r ∈ (batchedRun 100 rows).flatten := by
    rw [batchedRun, batchedGo_flatten]
    simpa using hr
  rw [List.mem_flatten] at hmem
  obtain ⟨b, hb, hrb⟩ := hmem
  exact ⟨b, hb, r, hrb, v, hv, hfal⟩

-- Witness for c7_company_validation at the two-row company scenario.
theorem c7_company_validation_witness :
    (createCompanyRun [[("name", Value.vstr "Acme")], [("name", Value.vstr "")]]).2.isSome
      = true :=
  (c7_company_validation [[("name", Value.vstr "Acme")], [("name", Value.vstr "")]]
    ⟨[("name", Value.vstr "")], by simp, Value.vstr "", rfl, rfl⟩).1

/-! ### C8: empty grouping key aborts before dispatch -/

theorem groupGo_error (rows : List Row) :
    ∀ acc, (∀ r ∈ rows, ∃ v, listLookup r "list_id" = some v) →
      (∃ r ∈ rows, ∃ v, listLookup r "list_id" = some v ∧ pyFalsy v = true) →
      groupGo rows acc = Except.error "Column [list_id] cannot be empty." := by
  induction rows with
  | nil =>
    intro acc hall hex
    simp at hex
  | cons row rest ih =>
    intro acc hall hex
    obtain ⟨v, hv⟩ := hall row (by simp)
    by_cases hf : pyFalsy v = true
    · simp [groupGo, hv, hf]
    · simp only [groupGo, hv]
      simp only [hf, if_false]
      apply ih
      · intro q hq
        exact hall q (by simp [hq])
      · obtain ⟨r, hr, w, hw, hfw⟩ := hex
        rw [List.mem_cons] at hr
        rcases hr with hr | hr
        · subst hr
          rw [hv] at hw
          cases hw
          exact absurd hfw hf
        · exact ⟨r, hr, w, hw, hfw⟩

/-- Claim C8: if any input row of the list-membership operation has an
empty list_id, the run aborts with the fatal exception during grouping,
before any request is assembled or sent: the request list is empty and
the error is set (no per-row recovery). -/
theorem c8_empty_list_id_aborts (rows : List Row)
    (hall : ∀ r ∈ rows, ∃ v, listLookup r "list_id" = some v)
    (hex : ∃ r ∈ rows, ∃ v, listLookup r "list_id" = some v ∧ pyFalsy v = true) :
    addContactToListRun rows = ([], some "Column [list_id] cannot be empty.") := by
  unfold addContactToListRun get_rows_by_list_id
  rw [groupGo_error rows [] hall hex]

-- Witness for c8_empty_list_id_aborts: a second row with an empty
-- list_id aborts the whole run with zero requests.
theorem c8_empty_list_id_aborts_witness :
    addContactToListRun
        [[("list_id", Value.vstr "7"), ("vids", Value.vstr "1"), ("emails", Value.vstr "")],
         [("list_id", Value.vstr ""), ("vids", Value.vstr "2"), ("emails", Value.vstr "")]]
      = ([], some "Column [list_id] cannot be empty.") := by
  apply c8_empty_list_id_aborts
  · intro r hr
    rw [List.mem_cons] at hr
    rcases hr with hr | hr
    · subst hr; exact ⟨Value.vstr "7", rfl⟩
    · rw [List.mem_cons] at hr
      rcases hr with hr | hr
      · subst hr; exact ⟨Value.vstr "", rfl⟩
      · simp at hr
  · exact ⟨[("list_id", Value.vstr ""), ("vids", Value.vstr "2"), ("emails", Value.vstr "")],
      by simp, Value.vstr "", rfl, rfl⟩

/-! ### C9: association column extraction -/

theorem listLookup_cons_ne (p : String × Value) (rest : Row) (k : String)
    (hk : (p.1 == k) = false) : listLookup (p :: rest) k = listLookup rest k := by
  unfold listLookup
  rw [List.find?_cons_of_neg _ (by simp [hk])]

theorem listLookup_cons_eq (p : String × Value) (rest : Row) (k : String)
    (hk : (p.1 == k) = true) : listLookup (p :: rest) k = some p.2 := by
  unfold listLookup
  rw [List.find?_cons_of_pos _ (by simp_all)]

theorem rowRemove_cons_eq (p : String × Value) (rest : Row) (q : String)
    (hp : (p.1 != q) = false) : rowRemove (p :: rest) q = rowRemove rest q := by
  simp only [rowRemove, List.filter_cons, hp]
  simp

theorem rowRemove_cons_ne (p : String × Value) (rest : Row) (q : String)
    (hp : (p.1 != q) = true) : rowRemove (p :: rest) q = p :: rowRemove rest q := by
  simp only [rowRemove, List.filter_cons, hp]
  simp

theorem listLookup_rowRemove_self (row : Row) (k : String) :
    listLookup (rowRemove row k) k = none := by
  induction row with
  | nil => rfl
  | cons p rest ih =>
    by_cases hp : p.1 = k
    · rw [rowRemove_cons_eq p rest k (by simp [hp])]
      exact ih
    · rw [rowRemove_cons_ne p rest k (by simpa using hp),
        listLookup_cons_ne p _ k (by simpa using hp)]
      exact ih

theorem listLookup_rowRemove_ne (row : Row) (k q : String) (h : k ≠ q) :
    listLookup (rowRemove row q) k = listLookup row k := by
  induction row with
  | nil => rfl
  | cons p rest ih =>
    by_cases hp : p.1 = q
    · have hk : (p.1 == k) = false := by
        rw [hp]
        simp only [beq_eq_false_iff_ne]
        exact fun he => h he.symm
      rw [rowRemove_cons_eq p rest q (by simp [hp]), listLookup_cons_ne p rest k hk]
      exact ih
    · rw [rowRemove_cons_ne p rest q (by simpa using hp)]
      by_cases hk : (p.1 == k) = true
      · rw [listLookup_cons_eq p _ k hk, listLookup_cons_eq p rest k hk]
      · have hk2 : (p.1 == k) = false := by simpa using hk
        rw [listLookup_cons_ne p _ k hk2, listLookup_cons_ne p rest k hk2]
        exact ih

/-- The relation between an input row and its emitted batch entry in
CreateAssociatedObject: the three association cells of the row fill the
single associations block (association_id str-coerced), and the emitted
properties object contains none of the three association columns. -/
def assocEntryOk (row : Row) (e : BatchEntry) : Prop :=
  ∃ aid cat tid,
    listLookup row "association_id" = some aid ∧ pyFalsy aid = false ∧
    listLookup row "association_category" = some cat ∧
    listLookup row "association_type_id" = some tid ∧
    e.associations = [⟨pyStr aid, cat, tid⟩] ∧
    listLookup e.properties "association_id" = none ∧
    listLookup e.properties "association_category" = none ∧
    listLookup e.properties "association_type_id" = none

/-- Claim C9: whenever CreateAssociatedObject succeeds, every row
supplied all three association columns (with a non-empty
association_id), each emitted entry carries exactly one associations
block built from those three cells, and none of the three association
columns appears in the emitted properties object. -/
theorem c9_association_extraction (rows : List Row) (l : List BatchEntry)
    (h : createAssociatedInputs rows = Except.ok l) :
    l.length = rows.length ∧ ∀ pr ∈ List.zip rows l, assocEntryOk pr.1 pr.2 := by
  induction rows generalizing l with
  | nil =>
    simp only [createAssociatedInputs] at h
    cases h
    simp
  | cons row rest ih =>
    simp only [createAssociatedInputs] at h
    cases hk : listLookup row "association_id" with
    | none => rw [hk] at h; cases h
    | some aid =>
      rw [hk] at h
      by_cases hf : pyFalsy aid = true
      · simp only [hf, if_true] at h
        cases h
      · simp only [hf, if_false] at h
        cases hc : listLookup (rowRemove row "association_id") "association_category" with
        | none => rw [hc] at h; cases h
        | some cat =>
          rw [hc] at h
          cases ht : listLookup (rowRemove (rowRemove row "association_id")
              "association_category") "association_type_id" with
          | none => rw [ht] at h; cases h
          | some tid =>
            rw [ht] at h
            cases hr : createAssociatedInputs rest with
            | error e => rw [hr] at h; cases h
            | ok l2 =>
              rw [hr] at h
              cases h
              obtain ⟨ihlen, ihall⟩ := ih l2 hr
              constructor
              · simp [ihlen]
              · intro pr hpr
                rw [List.zip_cons_cons, List.mem_cons] at hpr
                rcases hpr with hpr | hpr
                · subst hpr
                  refine ⟨aid, cat, tid, hk, by simpa using hf, ?_, ?_, rfl, ?_, ?_, ?_⟩
                  · rw [listLookup_rowRemove_ne row "association_category" "association_id"
                      (by decide)] at hc
                    exact hc
                  · rw [listLookup_rowRemove_ne _ "association_type_id" "association_category"
                      (by decide),
                      listLookup_rowRemove_ne row "association_type_id" "association_id"
                      (by decide)] at ht
                    exact ht
                  · show listLookup (rowRemove (rowRemove (rowRemove row "association_id")
                      "association_category") "association_type_id") "association_id" = none
                    rw [listLookup_rowRemove_ne _ "association_id" "association_type_id"
                      (by decide),
                      listLookup_rowRemove_ne _ "association_id" "association_category"
                      (by decide)]
                    exact listLookup_rowRemove_self row "association_id"
                  · show listLookup (rowRemove (rowRemove (rowRemove row "association_id")
                      "association_category") "association_type_id") "association_category" = none
                    rw [listLookup_rowRemove_ne _ "association_category" "association_type_id"
                      (by decide)]
                    exact listLookup_rowRemove_self _ "association_category"
                  · exact listLookup_rowRemove_self _ "association_type_id"
                · exact ihall pr hpr

-- Witness for c9_association_extraction at a concrete ticket row.
theorem c9_association_extraction_witness :
    ([⟨none, [("subject", Value.vstr "s")],
        [⟨Value.vstr "7", Value.vstr "HUBSPOT_DEFINED", Value.vint 16⟩]⟩] :
      List BatchEntry).length
      = [[("association_id", Value.vstr "7"),
          ("association_category", Value.vstr "HUBSPOT_DEFINED"),
          ("association_type_id", Value.vint 16), ("subject", Value.vstr "s")]].length := by
  have h := c9_association_extraction
    [[("association_id", Value.vstr "7"),
      ("association_category", Value.vstr "HUBSPOT_DEFINED"),
      ("association_type_id", Value.vint 16), ("subject", Value.vstr "s")]]
    [⟨none, [("subject", Value.vstr "s")],
      [⟨Value.vstr "7", Value.vstr "HUBSPOT_DEFINED", Value.vint 16⟩]⟩]
    (by rfl)
  exact h.1

/-! ### C10: id priority over email in list-membership payloads -/

/-- Specification-side reading of one row's contribution to the vids
list: the vids cell when it is non-empty, nothing otherwise. -/
def vidOf (r : Row) : Option Value :=
  match listLookup r "vids" with
  | some v => if pyFalsy v then none else some v
  | none => none

/-- Specification-side reading of one row's contribution to the emails
list: the emails cell, used only when the vids cell is empty. -/
def emailOf (r : Row) : Option Value :=
  match listLookup r "vids", listLookup r "emails" with
  | some v, some e => if pyFalsy v then some e else none
  | _, _ => none

theorem emailOf_none_of_truthy (row : Row) (v : Value)
    (hk : listLookup row "vids" = some v) (hf : pyFalsy v = false) :
    emailOf row = none := by
  unfold emailOf
  rw [hk]
  cases listLookup row "emails" with
  | none => rfl
  | some e => simp [hf]

theorem collectGo_ok (rows : List Row) :
    ∀ vids emails V E, collectGo rows vids emails = Except.ok (V, E) →
      V = vids ++ rows.filterMap vidOf ∧ E = emails ++ rows.filterMap emailOf := by
  induction rows with
  | nil =>
    intro vids emails V E h
    simp only [collectGo] at h
    cases h
    simp
  | cons row rest ih =>
    intro vids emails V E h
    simp only [collectGo] at h
    cases hk : listLookup row "vids" with
    | none => rw [hk] at h; cases h
    | some v =>
      rw [hk] at h
      by_cases hf : pyFalsy v = true
      · simp only [hf, if_true] at h
        cases he : listLookup row "emails" with
        | none => rw [he] at h; cases h
        | some e =>
          rw [he] at h
          obtain ⟨h1, h2⟩ := ih vids (emails ++ [e]) V E h
          constructor
          · rw [h1]
            simp [List.filterMap_cons, vidOf, hk, hf]
          · rw [h2]
            simp [List.filterMap_cons, emailOf, hk, he, hf]
      · simp only [hf, if_false] at h
        obtain ⟨h1, h2⟩ := ih (vids ++ [v]) emails V E h
        constructor
        · rw [h1]
          simp [List.filterMap_cons, vidOf, hk, hf]
        · rw [h2]
          simp [List.filterMap_cons,
            emailOf_none_of_truthy row v hk (by simpa using hf)]

/-- Claim C10: in the list-membership add payload, the numeric id takes
priority per row: the vids list is exactly the non-empty vids cells (in
row order) and the emails list is exactly the emails cells of the rows
whose vids cell is empty, so a row with both identifiers contributes its
id and its email value is unused. -/
theorem c10_vid_priority (rows : List Row) (V E : List Value)
    (h : collectVidsEmails rows = Except.ok (V, E)) :
    V = rows.filterMap vidOf ∧ E = rows.filterMap emailOf := by
  have hgo := collectGo_ok rows [] [] V E h
  simpa using hgo

-- Witness for c10_vid_priority: a row carrying both an id and an email
-- contributes only the id; the emails list stays empty.
theorem c10_vid_priority_witness :
    [Value.vstr "5"]
        = [[("vids", Value.vstr "5"), ("emails", Value.vstr "a@b.c")]].filterMap vidOf
    ∧ ([] : List Value)
        = [[("vids", Value.vstr "5"), ("emails", Value.vstr "a@b.c")]].filterMap emailOf :=
  c10_vid_priority [[("vids", Value.vstr "5"), ("emails", Value.vstr "a@b.c")]]
    [Value.vstr "5"] [] rfl

end HubspotWriter
